import Mathlib

/-!
Verification of the vector-retrieval subsystem and conversation-phase machine
of the medical-services chatbot repository (phase2 backend), plus the OCR
checkbox matcher (phase1).

Shallow embedding conventions:
* Vector components are modelled as rationals.  The source computes cosine
  similarity with floating-point `np.dot(a, b) / (np.linalg.norm(a) * np.linalg.norm(b))`;
  since the norms involve square roots, the model stores the strictly
  monotone image `t ↦ sign(t) * t ^ 2` of that quotient, namely
  `dot * |dot| / (normSq a * normSq b)`, which is a rational number.  This
  transform preserves equality, ordering and the sign of every similarity
  score, so every ranking, tie and comparison made by the source is made
  identically by the model.  A zero denominator (a zero-norm vector) makes
  numpy produce the float `nan`; the model represents that score as `none`.
* Python's `list.sort(key=..., reverse=True)` is a stable descending sort.
  The model uses a stable insertion sort with the comparison the source
  effectively uses: an element `x` stays before `y` unless `key x < key y`,
  and every comparison involving `nan` is false.  For real-valued keys this
  is the unique stable descending order, the same one timsort produces; the
  `nan` cases are exercised only on two-element lists, where every stable
  sort agrees with CPython's behaviour (`nan` keeps its position).
* External network calls (Azure embeddings, chat completions, file I/O for
  the per-id JSON payloads) are opaque collaborators: an embedding call is
  modelled by its result, `Option (List ℚ)`, mirroring
  `VectorStore.create_query_embedding`, which returns `None` on any error.
* Python exceptions crossing a modelled function are `Except.error`.
-/

deriving instance DecidableEq for Except

/-- A similarity score as numpy produces it: `none` is the float `nan`
(obtained from `0.0 / 0.0` when a vector has zero norm), `some q` a real
score represented by its sign-preserving square. -/
abbrev SimScore := Option ℚ

/-- Python float `<` on scores: every comparison involving `nan` is false. -/
def simLt : SimScore → SimScore → Bool
  | some a, some b => a < b
  | _, _ => false

/-- Specification order on scores used to state sortedness: `none` (the
undefined score of a zero-norm vector) is the bottom element, as §4.1 of the
spec demands for degenerate candidates. -/
def simScoreLEb : SimScore → SimScore → Bool
  | none, _ => true
  | some _, none => false
  | some a, some b => a ≤ b

/-- Sum of squares of the entries; zero exactly when `np.linalg.norm` is zero. -/
def normSq (v : List ℚ) : ℚ := (v.map (fun x => x * x)).sum

/-- Dot product (`np.dot`); corpus vectors all share one length, mirrored by
the hypotheses of the theorems below. -/
def dotList (a b : List ℚ) : ℚ := (List.zipWith (fun x y => x * y) a b).sum

/-- VectorStore._cosine_similarity (vector_store.py lines 80-82):
`np.dot(a, b) / (np.linalg.norm(a) * np.linalg.norm(b))`.  The model stores
the sign-preserving square of the quotient (see the header); a zero-norm
operand gives `nan`, i.e. `none`. -/
def cosine_similarity (a b : List ℚ) : SimScore :=
  let den := normSq a * normSq b
  if den = 0 then none
  else some (dotList a b * |dotList a b| / den)

/-- One row of `embeddings_metadata.csv` as a (column, cell) association
list; `metadata_df.iloc[idx].to_dict()` in the source. -/
abbrev Row := List (String × String)

/-- The in-memory state of a loaded `VectorStore`: the metadata table (its
column names and rows) and the `embeddings.npy` array, row-aligned with the
metadata.  `load_from_directory` raises unless
`len(metadata_df) == len(embeddings)`; theorems about a loaded corpus carry
that equality as a hypothesis. -/
structure Corpus where
  columns : List String
  rows : List Row
  embeddings : List (List ℚ)
deriving DecidableEq

/-- One iteration of the metadata-filter loop of VectorStore.search (lines
108-114): if the key is a dataframe column, keep the candidate indices whose
cell equals the value (`np.intersect1d` keeps ascending order, which
`List.filter` preserves); keys that are not columns are skipped. -/
def filterStep (c : Corpus) (acc : List Nat) (kv : String × String) : List Nat :=
  if c.columns.contains kv.1 then
    acc.filter (fun i => (c.rows.getD i []).lookup kv.1 == some kv.2)
  else acc

/-- The metadata-filter loop of VectorStore.search (lines 104-115): start
from all row indices and fold `filterStep` over the criteria pairs. -/
def applyFilters (c : Corpus) (criteria : List (String × String)) : List Nat :=
  criteria.foldl (filterStep c) (List.range c.rows.length)

/-- Stable descending insertion step for `list.sort(key=lambda x: x[1], reverse=True)`:
`x` is placed before `y` unless `x`'s key compares less than `y`'s. -/
def insertDesc (x : Nat × SimScore) : List (Nat × SimScore) → List (Nat × SimScore)
  | [] => [x]
  | y :: ys => if simLt x.2 y.2 then y :: insertDesc x ys else x :: y :: ys

/-- Stable descending sort of the `(index, similarity)` pairs, modelling
`similarities.sort(key=lambda x: x[1], reverse=True)` (line 129). -/
def sortBySimDesc : List (Nat × SimScore) → List (Nat × SimScore)
  | [] => []
  | x :: xs => insertDesc x (sortBySimDesc xs)

/-- One entry of the list VectorStore.search returns: the row's metadata
dict, and the value stored under the 'similarity' key.  The row index `idx`
(the `iloc` position the entry was built from) is recorded alongside to let
theorems speak about the entry's own embedding; the source's `json_data`
payload field is opaque file I/O and is not modelled. -/
structure SearchHit where
  idx : Nat
  metadata : Row
  similarity : SimScore
deriving DecidableEq

/-- The tail of VectorStore.search after the candidate index set is fixed
(lines 123-157): score every candidate, sort descending, truncate to
`topK`, and build each result.  Note the source fetches the reported
'similarity' as `similarities[filtered_indices.tolist().index(idx)][1]`,
i.e. it indexes the already-sorted list by the candidate's position in the
pre-sort order — reproduced faithfully here via `findIdx`. -/
def searchFrom (c : Corpus) (q : List ℚ) (topK : Nat) (filtered : List Nat) : List SearchHit :=
  let sims := filtered.map (fun i => (i, cosine_similarity q (c.embeddings.getD i [])))
  let sorted := sortBySimDesc sims
  (sorted.take topK).map (fun p =>
    { idx := p.1
      metadata := c.rows.getD p.1 []
      similarity := (sorted.getD (filtered.findIdx (fun j => j == p.1)) (0, none)).2 })

/-- VectorStore.search (vector_store.py lines 84-157).  `queryEmbedding` is
the result of the external `create_query_embedding` call (`none` models a
failed call, upon which the source returns `[]`).  An empty criteria dict is
falsy in Python, so the whole corpus is the candidate set; with criteria
present, a non-matching filter combination returns `[]` early. -/
def VectorStore.search (c : Corpus) (queryEmbedding : Option (List ℚ)) (topK : Nat)
    (filterCriteria : List (String × String)) : List SearchHit :=
  match queryEmbedding with
  | none => []
  | some q =>
    if filterCriteria.isEmpty then
      searchFrom c q topK (List.range c.rows.length)
    else
      let filtered := applyFilters c filterCriteria
      if filtered.isEmpty then [] else searchFrom c q topK filtered

/-- One iteration of the filter loop of VectorStore.filter_by_metadata
(lines 199-201), acting on the rows themselves. -/
def rowFilterStep (c : Corpus) (rs : List Row) (kv : String × String) : List Row :=
  if c.columns.contains kv.1 then rs.filter (fun r => r.lookup kv.1 == some kv.2) else rs

/-- VectorStore.filter_by_metadata (lines 183-203): filter the rows by each
criteria pair whose key is a column, then return the 'id' column of what is
left. -/
def filter_by_metadata (c : Corpus) (criteria : List (String × String)) : List (Option String) :=
  (criteria.foldl (rowFilterStep c) c.rows).map (fun r => r.lookup "id")

/-- True cosine similarity between the query and the hit's own stored
embedding — what the 'similarity' key of a hit is supposed to hold. -/
def trueSim (c : Corpus) (q : List ℚ) (h : SearchHit) : SimScore :=
  cosine_similarity q (c.embeddings.getD h.idx [])

/-- Adjacent non-increasing check for a score sequence, the sortedness
notion of spec §4.1/§8 ("sorted by non-increasing similarity score"). -/
def sortedDescBy (f : α → SimScore) : List α → Bool
  | [] => true
  | [_] => true
  | a :: b :: t => simScoreLEb (f b) (f a) && sortedDescBy f (b :: t)

/-- The Hebrew-to-internal health-fund mapping of search_knowledge_base
(vector_search.py lines 44-57) with its `.lower()` fallback for unknown
display values. -/
def hmoMapping (hmo : String) : String :=
  if hmo = "מכבי" then "maccabi"
  else if hmo = "מאוחדת" then "meuhedet"
  else if hmo = "כללית" then "clalit"
  else hmo.toLower

/-- The Hebrew-to-internal tier mapping with the same fallback. -/
def tierMapping (tier : String) : String :=
  if tier = "זהב" then "gold"
  else if tier = "כסף" then "silver"
  else if tier = "ארד" then "bronze"
  else tier.toLower

/-- One reshaped result of search_knowledge_base (lines 73-84).  The
`json_data` payload is per-id file I/O, not modelled, so the payload-derived
fields carry the `.get(..., default)` defaults; `similarity` is copied from
the vector-store hit. -/
structure FormattedResult where
  category : String
  description : String
  hmo : String
  tier : String
  similarity : SimScore
deriving DecidableEq

/-- The dictionary search_knowledge_base returns.  The `error` key exists
only in the `except` branch (lines 93-103); `none` means the key is absent. -/
structure SKBResult where
  results : List FormattedResult
  count : Nat
  query : String
  hmo : String
  tier : String
  error : Option String
deriving DecidableEq

/-- search_knowledge_base (vector_search.py lines 26-103).  `qEmb` is the
outcome of the embedding call made inside VectorStore.search.  Nothing in
the modelled happy path raises, so the `except` branch that would attach an
`error` field is unreachable here: an embedding failure is *not* an
exception — it surfaces as `search` returning `[]`. -/
def search_knowledge_base (c : Corpus) (qEmb : Option (List ℚ)) (query hmo tier : String) : SKBResult :=
  let filterCriteria := [("hmo", hmoMapping hmo), ("tier", tierMapping tier)]
  let results := VectorStore.search c qEmb 6 filterCriteria
  let formatted := results.map (fun r =>
    ({ category := "", description := "", hmo := "", tier := ""
       similarity := r.similarity } : FormattedResult))
  { results := formatted, count := formatted.length, query := query, hmo := hmo, tier := tier,
    error := none }

/-- A Python value handed to `verify_user_information` as `age`: the JSON
arguments deliver either an int or a string (other JSON types are out of
scope for the claims). -/
inductive PyVal where
  | int (n : Int)
  | str (s : String)
deriving DecidableEq

/-- Python `str.isdigit()` restricted to ASCII digits: true iff the string
is non-empty and all characters are digits. -/
def pyIsDigitStr (s : String) : Bool :=
  !s.isEmpty && s.toList.all Char.isDigit

/-- Value of a non-empty digit string. -/
def digitsToNat (l : List Char) : Nat :=
  l.foldl (fun acc c => acc * 10 + (c.toNat - 48)) 0

/-- Python `int(s)` on a string: an optional sign followed by digits
(whitespace trimming and underscore separators are not modelled); `none` is
the `ValueError` it otherwise raises. -/
def pyIntOfString (s : String) : Option Int :=
  match s.toList with
  | [] => none
  | c :: rest =>
    if c = '-' then
      if rest ≠ [] ∧ rest.all Char.isDigit then some (-(digitsToNat rest : Int)) else none
    else if c = '+' then
      if rest ≠ [] ∧ rest.all Char.isDigit then some (digitsToNat rest : Int) else none
    else if (c :: rest).all Char.isDigit then some (digitsToNat (c :: rest) : Int) else none

/-- Python `int(x)` for the values `age` can hold. -/
def pyInt : PyVal → Option Int
  | .int n => some n
  | .str s => pyIntOfString s

/-- The coercion at the top of verify_user_information (utils.py lines
33-34): `if isinstance(age, str) and age.isdigit(): age = int(age)`. -/
def coerceAge : PyVal → PyVal
  | .str s => if pyIsDigitStr s then .int (digitsToNat s.toList : Int) else .str s
  | a => a

/-- verify_user_information (utils.py lines 8-61).  Checks run in source
order; `Except.error` models the `ValueError` that `int(age)` raises on a
string it cannot parse (that exception propagates out of the function). -/
def verify_user_information (full_name id_number gender : String) (age : PyVal)
    (health_fund hmo_card_number insurance_tier : String) : Except String String :=
  let age := coerceAge age
  if !(pyIsDigitStr id_number && id_number.length == 9) then
    .ok "Invalid ID number format. It must be a 9-digit number."
  else
    match pyInt age with
    | none => .error "invalid literal for int() with base 10"
    | some n =>
      if !(decide (0 ≤ n) && decide (n ≤ 120)) then
        .ok "Invalid age. It must be between 0 and 120."
      else if !(pyIsDigitStr hmo_card_number && hmo_card_number.length == 9) then
        .ok "Invalid HMO card number format. It must be a 9-digit number."
      else if !(["זכר", "נקבה", "אחר"].contains gender) then
        .ok "Invalid gender. Must be one of: זכר, נקבה, אחר."
      else if !(["מכבי", "מאוחדת", "כללית"].contains health_fund) then
        .ok "Invalid health fund. Must be one of: מכבי, מאוחדת, כללית."
      else if !(["זהב", "כסף", "ארד"].contains insurance_tier) then
        .ok "Invalid insurance tier. Must be one of: זהב, כסף, ארד."
      else
        .ok "Validation successful."

/-- The identity record proposed by the language model through the
verify_user_information tool call (`function_args` in main.py). -/
structure ProposedInfo where
  full_name : String
  id_number : String
  gender : String
  age : PyVal
  health_fund : String
  hmo_card_number : String
  insurance_tier : String
deriving DecidableEq

/-- The slice of the ChatResponse that the collection phase determines:
the next `conversation_phase` and the `user_info` field handed back to the
caller. -/
structure CollectOutcome where
  conversation_phase : String
  user_info : Option ProposedInfo
deriving DecidableEq

/-- Substring test: Python's `pat in s`. -/
def strContains (s pat : String) : Bool :=
  (List.range (s.toList.length + 1)).any (fun i => List.isPrefixOf pat.toList (s.toList.drop i))

/-- verify_user_information applied to a proposed record's fields, exactly
as the tool-call handler in main.py lines 143-151 passes them. -/
def verifyRecord (a : ProposedInfo) : Except String String :=
  verify_user_information a.full_name a.id_number a.gender a.age
    a.health_fund a.hmo_card_number a.insurance_tier

/-- The verify_user_information tool-call branch of
process_information_collection (main.py lines 133-179): validation runs,
`user_info` is set to `function_args` unconditionally, and the phase flips
to "qa" exactly when the validation message contains "successful".  The
surrounding chat-completion calls are external; a raised exception
propagates to the /chat handler (HTTP 500) and is modelled by
`Except.error`. -/
def process_information_collection (args : ProposedInfo) : Except String CollectOutcome :=
  match verifyRecord args with
  | .error e => .error e
  | .ok validation_result =>
    .ok { conversation_phase :=
            if strContains validation_result "successful" then "qa"
            else "information_collection"
          user_info := some args }

/-- The guard of spec §4.3, stated from the spec's words: the six checks in
their fixed order, each paired with the failure message that names the
field.  The age check is "integer in [0, 120] inclusive (numeric strings
coerced to integer first)"; a value `int()` cannot read is not an integer,
so its check fails. -/
def specChecks (args : ProposedInfo) : List (Bool × String) :=
  [ (pyIsDigitStr args.id_number && args.id_number.length == 9,
      "Invalid ID number format. It must be a 9-digit number."),
    ((match pyInt (coerceAge args.age) with
      | some n => decide (0 ≤ n) && decide (n ≤ 120)
      | none => false),
      "Invalid age. It must be between 0 and 120."),
    (pyIsDigitStr args.hmo_card_number && args.hmo_card_number.length == 9,
      "Invalid HMO card number format. It must be a 9-digit number."),
    (["זכר", "נקבה", "אחר"].contains args.gender,
      "Invalid gender. Must be one of: זכר, נקבה, אחר."),
    (["מכבי", "מאוחדת", "כללית"].contains args.health_fund,
      "Invalid health fund. Must be one of: מכבי, מאוחדת, כללית."),
    (["זהב", "כסף", "ארד"].contains args.insurance_tier,
      "Invalid insurance tier. Must be one of: זהב, כסף, ארד.") ]

/-- First-failure-wins semantics over an ordered check list (spec §4.3). -/
def firstFailure : List (Bool × String) → Option String
  | [] => none
  | (true, _) :: rest => firstFailure rest
  | (false, m) :: _ => some m

/-- The validation outcome as §4.3 words it: message of the first failing
check, or the success message. -/
def specValidate (args : ProposedInfo) : String :=
  (firstFailure (specChecks args)).getD "Validation successful."

/-- All six §4.3 checks pass. -/
def allSixPass (args : ProposedInfo) : Bool :=
  (specChecks args).all (fun chk => chk.1)

/-- The collection phase ends in "qa" for this proposed record. -/
def reachesQA (args : ProposedInfo) : Prop :=
  ∃ r, process_information_collection args = .ok r ∧ r.conversation_phase = "qa"

/-- A polygon corner as Azure returns it. -/
structure OcrPoint where
  x : ℚ
  y : ℚ
deriving DecidableEq

/-- A label line: `content` plus its polygon (`position`). -/
structure OcrLine where
  content : String
  position : List OcrPoint
deriving DecidableEq

/-- A checkbox mark: its `state` ("selected"/"unselected") and polygon. -/
structure OcrMark where
  state : String
  position : List OcrPoint
deriving DecidableEq

/-- One entry of the list match_key_with_checkbox returns. -/
structure OcrMatch where
  line_content : String
  matched_mark_state : Option String
deriving DecidableEq

/-- compute_center (ocr_extractor.py lines 47-51): arithmetic mean of the
corner points.  Python divides by `len(points)` and would raise on an empty
polygon; theorems therefore assume non-empty polygons. -/
def compute_center (points : List OcrPoint) : ℚ × ℚ :=
  ((points.map (fun p => p.x)).sum / points.length,
   (points.map (fun p => p.y)).sum / points.length)

/-- Squared Euclidean distance between centroids.  The source compares
`math.dist` values; squaring is strictly monotone on non-negative reals, so
every comparison the loop makes is preserved. -/
def distSq (p q : ℚ × ℚ) : ℚ :=
  (p.1 - q.1) * (p.1 - q.1) + (p.2 - q.2) * (p.2 - q.2)

/-- The closest-candidate loop of match_key_with_checkbox (lines 66-73):
running best starts at `None` with distance infinity, and is replaced only
on a strictly smaller distance, so the first minimum found wins ties. -/
def bestLoop (lc : ℚ × ℚ) : Option (OcrMark × ℚ) → List OcrMark → Option (OcrMark × ℚ)
  | best, [] => best
  | best, m :: ms =>
    let d := distSq lc (compute_center m.position)
    match best with
    | none => bestLoop lc (some (m, d)) ms
    | some (bm, bd) =>
      if d < bd then bestLoop lc (some (m, d)) ms else bestLoop lc (some (bm, bd)) ms

/-- match_key_with_checkbox (ocr_extractor.py lines 54-87): for each label
line, restrict to marks whose centroid lies strictly to the right of the
label's centroid, take the first closest one, and emit its state (or none). -/
def match_key_with_checkbox (lines : List OcrLine) (marks : List OcrMark) : List OcrMatch :=
  lines.map (fun line =>
    let lc := compute_center line.position
    let valid := marks.filter (fun m => lc.1 < (compute_center m.position).1)
    { line_content := line.content
      matched_mark_state := (bestLoop lc none valid).map (fun p => p.1.state) })

/-- A tiny loaded corpus: two rows, orthogonal unit embeddings. -/
def exCorpus : Corpus :=
  { columns := ["id", "hmo", "tier"]
    rows := [[("id", "a"), ("hmo", "maccabi"), ("tier", "gold")],
             [("id", "b"), ("hmo", "clalit"), ("tier", "gold")]]
    embeddings := [[1, 0], [0, 1]] }

/-- The same metadata with a zero-norm first embedding. -/
def exCorpusZero : Corpus :=
  { columns := ["id", "hmo", "tier"]
    rows := [[("id", "a"), ("hmo", "maccabi"), ("tier", "gold")],
             [("id", "b"), ("hmo", "clalit"), ("tier", "gold")]]
    embeddings := [[0, 0], [0, 1]] }

section ValidationLemmas

/-- The validation semantics spelled out in §4.3: the first failing check's
message, otherwise success — provided `int(age)` does not raise. -/
lemma verifyRecord_eq_spec (a : ProposedInfo) (h : (pyInt (coerceAge a.age)).isSome = true) :
    verifyRecord a = .ok (specValidate a) := by
  obtain ⟨n, hn⟩ := Option.isSome_iff_exists.mp h
  cases h1 : (pyIsDigitStr a.id_number && a.id_number.length == 9) <;>
    cases h2 : (decide (0 ≤ n) && decide (n ≤ 120)) <;>
      cases h3 : (pyIsDigitStr a.hmo_card_number && a.hmo_card_number.length == 9) <;>
        cases h4 : (["זכר", "נקבה", "אחר"].contains a.gender) <;>
          cases h5 : (["מכבי", "מאוחדת", "כללית"].contains a.health_fund) <;>
            cases h6 : (["זהב", "כסף", "ארד"].contains a.insurance_tier) <;>
              simp only [verifyRecord, verify_user_information, specValidate, specChecks,
                firstFailure, hn, h1, h2, h3, h4, h5, h6] <;>
                simp [firstFailure]

/-- The phase machine reaches a "successful" validation message exactly when
all six checks pass. -/
lemma verify_qa_iff (a : ProposedInfo) :
    (∃ m, verifyRecord a = .ok m ∧ strContains m "successful" = true) ↔ allSixPass a = true := by
  cases hn : pyInt (coerceAge a.age) with
  | none =>
    cases h1 : (pyIsDigitStr a.id_number && a.id_number.length == 9) <;>
      simp only [verifyRecord, verify_user_information, allSixPass, specChecks, hn, h1] <;>
        simp <;> decide
  | some n =>
    cases h1 : (pyIsDigitStr a.id_number && a.id_number.length == 9) <;>
      cases h2 : (decide (0 ≤ n) && decide (n ≤ 120)) <;>
        cases h3 : (pyIsDigitStr a.hmo_card_number && a.hmo_card_number.length == 9) <;>
          cases h4 : (["זכר", "נקבה", "אחר"].contains a.gender) <;>
            cases h5 : (["מכבי", "מאוחדת", "כללית"].contains a.health_fund) <;>
              cases h6 : (["זהב", "כסף", "ארד"].contains a.insurance_tier) <;>
                simp only [verifyRecord, verify_user_information, allSixPass, specChecks,
                  hn, h1, h2, h3, h4, h5, h6] <;>
                  simp <;> decide

/-- When some check fails, the spec-side validation message does not contain
"successful". -/
lemma specValidate_not_successful (a : ProposedInfo) (hfail : allSixPass a = false) :
    strContains (specValidate a) "successful" = false := by
  cases h1 : (pyIsDigitStr a.id_number && a.id_number.length == 9) <;>
    cases h2 : (match pyInt (coerceAge a.age) with
      | some n => decide (0 ≤ n) && decide (n ≤ 120)
      | none => false) <;>
      cases h3 : (pyIsDigitStr a.hmo_card_number && a.hmo_card_number.length == 9) <;>
        cases h4 : (["זכר", "נקבה", "אחר"].contains a.gender) <;>
          cases h5 : (["מכבי", "מאוחדת", "כללית"].contains a.health_fund) <;>
            cases h6 : (["זהב", "כסף", "ארד"].contains a.insurance_tier) <;>
              simp only [allSixPass, specValidate, specChecks, firstFailure,
                h1, h2, h3, h4, h5, h6] at hfail ⊢ <;>
                first
                  | decide
                  | simp_all

end ValidationLemmas

/-- A record whose six validated fields are all valid but whose full_name is
empty. -/
def exInfoNoName : ProposedInfo :=
  { full_name := "", id_number := "123456789", gender := "נקבה", age := .int 30,
    health_fund := "מכבי", hmo_card_number := "987654321", insurance_tier := "זהב" }

/-- A record that is valid except for an unknown gender literal. -/
def exInfoBadGender : ProposedInfo :=
  { full_name := "דנה כהן", id_number := "123456789", gender := "X", age := .int 30,
    health_fund := "מכבי", hmo_card_number := "987654321", insurance_tier := "זהב" }

/-- A record that is valid except for an unknown insurance tier. -/
def exInfoBadTier : ProposedInfo :=
  { full_name := "דנה כהן", id_number := "123456789", gender := "נקבה", age := .int 30,
    health_fund := "מכבי", hmo_card_number := "987654321", insurance_tier := "פלטינה" }

/-- A fully valid record (the §8 example tuple). -/
def exInfoValid : ProposedInfo :=
  { full_name := "דנה כהן", id_number := "123456789", gender := "נקבה", age := .int 30,
    health_fund := "מכבי", hmo_card_number := "987654321", insurance_tier := "זהב" }

/-- A record whose age is the non-numeric string "abc" and whose other
fields are valid. -/
def exInfoBadAge : ProposedInfo :=
  { full_name := "דנה כהן", id_number := "123456789", gender := "נקבה", age := .str "abc",
    health_fund := "מכבי", hmo_card_number := "987654321", insurance_tier := "זהב" }

/-- Claim C4, counterexample: a proposed record with an empty full_name (and
six valid checked fields) is accepted — the phase flips to "qa" and the
record is stored, so the transition is not guarded by all seven fields being
non-empty and valid. -/
theorem claimC4_counterexample :
    exInfoNoName.full_name = "" ∧
    process_information_collection exInfoNoName
      = .ok { conversation_phase := "qa", user_info := some exInfoNoName } :=
  ⟨rfl, by decide⟩

/-- Claim C4, amended: the Collecting → Answering transition happens exactly
when the six checks of §4.3 (id_number, age, hmo_card_number, gender,
health_fund, insurance_tier) pass; full_name is never validated, so its
non-emptiness is not part of the guard. -/
theorem claimC4_theorem (args : ProposedInfo) : reachesQA args ↔ allSixPass args = true := by
  rw [← verify_qa_iff]
  constructor
  · rintro ⟨r, hr, hphase⟩
    unfold process_information_collection at hr
    cases hv : verifyRecord args with
    | error e => rw [hv] at hr; exact absurd hr (by simp)
    | ok m =>
      rw [hv] at hr
      refine ⟨m, rfl, ?_⟩
      cases hc : strContains m "successful" with
      | true => rfl
      | false =>
        simp only [Except.ok.injEq] at hr
        rw [← hr] at hphase
        rw [hc] at hphase
        simp at hphase
  · rintro ⟨m, hv, hc⟩
    refine ⟨{ conversation_phase := "qa", user_info := some args }, ?_, rfl⟩
    unfold process_information_collection
    rw [hv]
    simp [hc]

/-- Claim C5, counterexample: with a syntactically non-numeric age string
("abc") and a valid id_number, the first failing check is the age check, but
the function does not return its message — `int(age)` raises instead, so
first-failure-wins does not hold as stated for every record. -/
theorem claimC5_counterexample :
    verifyRecord exInfoBadAge ≠ .ok (specValidate exInfoBadAge) ∧
    specValidate exInfoBadAge = "Invalid age. It must be between 0 and 120." ∧
    verifyRecord exInfoBadAge = .error "invalid literal for int() with base 10" := by
  refine ⟨by decide, by decide, by decide⟩

/-- Claim C5, amended: provided `int()` accepts the age value (so the age
check can be evaluated without raising), validation returns exactly the
message of the first failing check in the fixed order id_number, age,
hmo_card_number, gender, health_fund, insurance_tier, and returns the
success message iff every check passes. -/
theorem claimC5_theorem (args : ProposedInfo)
    (h : (pyInt (coerceAge args.age)).isSome = true) :
    verifyRecord args = .ok (specValidate args) ∧
    (verifyRecord args = .ok "Validation successful." ↔ allSixPass args = true) := by
  have hs := verifyRecord_eq_spec args h
  refine ⟨hs, ?_⟩
  rw [hs]
  constructor
  · intro hok
    simp only [Except.ok.injEq] at hok
    by_contra hfail
    have hfail' : allSixPass args = false := by
      cases hh : allSixPass args
      · rfl
      · exact absurd hh hfail
    have := specValidate_not_successful args hfail'
    rw [hok] at this
    exact absurd this (by decide)
  · intro hpass
    have : firstFailure (specChecks args) = none := by
      unfold allSixPass at hpass
      cases hf : firstFailure (specChecks args) with
      | none => rfl
      | some m =>
        exfalso
        revert hf
        have : ∀ l : List (Bool × String), l.all (fun chk => chk.1) = true →
            firstFailure l = some m → False := by
          intro l
          induction l with
          | nil => intro _ hf; exact absurd hf (by simp [firstFailure])
          | cons hd tl ih =>
            intro hall hf
            rcases hd with ⟨b, msg⟩
            cases b
            · simp at hall
            · exact ih (by simpa using hall) (by simpa [firstFailure] using hf)
        exact this _ hpass
    simp [specValidate, this]

/-- Claim C5, witness: a concrete fully valid record satisfies the
hypothesis and the amended conclusion. -/
theorem claimC5_witness :
    (pyInt (coerceAge exInfoValid.age)).isSome = true ∧
    (verifyRecord exInfoValid = .ok (specValidate exInfoValid) ∧
      (verifyRecord exInfoValid = .ok "Validation successful." ↔ allSixPass exInfoValid = true)) :=
  ⟨by decide, claimC5_theorem exInfoValid (by decide)⟩

/-- Claim C6: validation does not return a descriptive string for every
input — a non-numeric age string makes `int(age)` raise a ValueError that
escapes verify_user_information (and would surface as an HTTP 500, not a
re-prompt); numeric digit strings are indeed coerced and validated. -/
theorem claimC6_theorem :
    verify_user_information "דנה כהן" "123456789" "נקבה" (.str "abc") "מכבי" "987654321" "זהב"
      = .error "invalid literal for int() with base 10" ∧
    verify_user_information "דנה כהן" "123456789" "נקבה" (.str "30") "מכבי" "987654321" "זהב"
      = .ok "Validation successful." ∧
    verify_user_information "דנה כהן" "123456789" "נקבה" (.str "121") "מכבי" "987654321" "זהב"
      = .ok "Invalid age. It must be between 0 and 120." :=
  ⟨by decide, by decide, by decide⟩

/-- Claim C7, counterexample: on a failed validation the phase does stay
"information_collection", but the response's user_info field still carries
the proposed (invalid) record — it is handed back to the caller rather than
withheld. -/
theorem claimC7_counterexample :
    allSixPass exInfoBadGender = false ∧
    process_information_collection exInfoBadGender
      = .ok { conversation_phase := "information_collection",
              user_info := some exInfoBadGender } :=
  ⟨by decide, by decide⟩

/-- Claim C7, amended: on a failed validation (that does not raise) the
phase remains Collecting, but `user_info` in the response echoes the
proposed record unconditionally; storage is left to the caller, which the
reference UI does unconditionally as well. -/
theorem claimC7_theorem (args : ProposedInfo)
    (hfail : allSixPass args = false)
    (hage : (pyInt (coerceAge args.age)).isSome = true) :
    process_information_collection args
      = .ok { conversation_phase := "information_collection", user_info := some args } := by
  unfold process_information_collection
  rw [verifyRecord_eq_spec args hage]
  simp [specValidate_not_successful args hfail]

/-- Claim C7, witness: the hypotheses and conclusion of the amended claim at
a concrete record with an unknown tier. -/
theorem claimC7_witness :
    allSixPass exInfoBadTier = false ∧
    (pyInt (coerceAge exInfoBadTier.age)).isSome = true ∧
    process_information_collection exInfoBadTier
      = .ok { conversation_phase := "information_collection", user_info := some exInfoBadTier } :=
  ⟨by decide, by decide, claimC7_theorem exInfoBadTier (by decide) (by decide)⟩

/-- Claim C8, counterexample: when the embedding call fails (`none`), the
service's reply is *identical* to the reply for a perfectly healthy query
whose filter combination simply matches no records — same empty results,
same count, and no `error` field — so there is no explicit failure indicator
distinguishing the two. -/
theorem claimC8_counterexample :
    search_knowledge_base exCorpus none "q" "לאומית" "זהב"
      = search_knowledge_base exCorpus (some [1, 0]) "q" "לאומית" "זהב" ∧
    (search_knowledge_base exCorpus none "q" "לאומית" "זהב").error = none ∧
    (search_knowledge_base exCorpus none "q" "לאומית" "זהב").results = [] :=
  ⟨by with_unfolding_all rfl, rfl, rfl⟩

/-- Claim C8, amended: when the embedding call fails or returns no vector,
search_knowledge_base returns the empty result set without raising — but
with no failure indicator at all (the `error` key is attached only when an
exception reaches the handler's except branch, which an embedding failure
never does). -/
theorem claimC8_theorem (c : Corpus) (query hmo tier : String) :
    search_knowledge_base c none query hmo tier
      = { results := [], count := 0, query := query, hmo := hmo, tier := tier,
          error := none } :=
  rfl

/-- Claim C2: the first hit returned for the query embedding [0, 1] over
`exCorpus` is record 1, whose own cosine similarity to the query is 1 (the
maximal score), yet the 'similarity' value merged into that hit is record
0's score 0 — the source indexes the already-sorted score list by the
pre-sort position, pairing hits with other records' scores. -/
theorem claimC2_theorem :
    (VectorStore.search exCorpus (some [0, 1]) 2 []).map (fun h => (h.idx, h.similarity))
      = [(1, some 0), (0, some 1)] ∧
    cosine_similarity [0, 1] (exCorpus.embeddings.getD 1 []) = some 1 ∧
    cosine_similarity [0, 1] (exCorpus.embeddings.getD 0 []) = some 0 :=
  ⟨by with_unfolding_all rfl, by with_unfolding_all rfl, by with_unfolding_all rfl⟩

/-- Claim C3: searching `exCorpusZero` (record 0 has the zero embedding)
with query [0, 1] computes the undefined score `nan` (`none`) for the
zero-norm candidate without raising, and the stable sort leaves that
candidate ranked *first*, above the exact match with score 1 — it is neither
given the minimum score nor excluded. -/
theorem claimC3_theorem :
    normSq (exCorpusZero.embeddings.getD 0 []) = 0 ∧
    cosine_similarity [0, 1] (exCorpusZero.embeddings.getD 0 []) = none ∧
    (VectorStore.search exCorpusZero (some [0, 1]) 5 []).map (fun h => (h.idx, h.similarity))
      = [(0, none), (1, some 1)] :=
  ⟨by with_unfolding_all rfl, by with_unfolding_all rfl, by with_unfolding_all rfl⟩

section SortLemmas

/-- Membership through one descending insertion. -/
lemma mem_insertDesc {a x : Nat × SimScore} :
    ∀ {l : List (Nat × SimScore)}, a ∈ insertDesc x l ↔ a = x ∨ a ∈ l := by
  intro l
  induction l with
  | nil => simp [insertDesc]
  | cons y ys ih =>
    by_cases h : simLt x.2 y.2 = true
    · rw [insertDesc, if_pos h]
      simp only [List.mem_cons, ih]
      tauto
    · rw [insertDesc, if_neg h]
      simp only [List.mem_cons]

/-- Membership is preserved by the descending sort. -/
lemma mem_sortBySimDesc {a : Nat × SimScore} :
    ∀ {l : List (Nat × SimScore)}, a ∈ sortBySimDesc l ↔ a ∈ l := by
  intro l
  induction l with
  | nil => simp [sortBySimDesc]
  | cons x xs ih =>
    rw [sortBySimDesc]
    rw [mem_insertDesc]
    simp [ih]

/-- A true Python float comparison means both operands are real scores. -/
lemma simLt_true_elim {s t : SimScore} (h : simLt s t = true) :
    ∃ a b, s = some a ∧ t = some b ∧ a < b := by
  cases s with
  | none => simp [simLt] at h
  | some a =>
    cases t with
    | none => simp [simLt] at h
    | some b =>
      refine ⟨a, b, rfl, rfl, ?_⟩
      simpa [simLt] using h

/-- Inserting into a descending chain keeps it descending, provided all
scores are real (no `nan`). -/
lemma pairwise_insertDesc {x : Nat × SimScore} :
    ∀ {l : List (Nat × SimScore)},
      x.2.isSome = true → (∀ y ∈ l, (y.2).isSome = true) →
      l.Pairwise (fun a b => simLt a.2 b.2 = false) →
      (insertDesc x l).Pairwise (fun a b => simLt a.2 b.2 = false) := by
  intro l
  induction l with
  | nil =>
    intro _ _ _
    simp [insertDesc]
  | cons y ys ih =>
    intro hx hl h
    obtain ⟨hy, hys⟩ := List.pairwise_cons.mp h
    by_cases hlt : simLt x.2 y.2 = true
    · rw [insertDesc, if_pos hlt]
      refine List.pairwise_cons.mpr
        ⟨?_, ih hx (fun z hz => hl z (List.mem_cons_of_mem _ hz)) hys⟩
      intro z hz
      rcases mem_insertDesc.mp hz with rfl | hz'
      · obtain ⟨a, b, hxa, hyb, hab⟩ := simLt_true_elim hlt
        rw [hyb, hxa]
        simp [simLt]
        exact le_of_lt hab
      · exact hy z hz'
    · have hltf : simLt x.2 y.2 = false := by
        cases hcc : simLt x.2 y.2
        · rfl
        · exact absurd hcc hlt
      rw [insertDesc, if_neg hlt]
      refine List.pairwise_cons.mpr ⟨?_, h⟩
      intro z hz
      rcases List.mem_cons.mp hz with rfl | hz'
      · exact hltf
      · obtain ⟨a, ha⟩ := Option.isSome_iff_exists.mp hx
        obtain ⟨b, hb⟩ := Option.isSome_iff_exists.mp (hl y (List.mem_cons_self y ys))
        obtain ⟨d, hd⟩ := Option.isSome_iff_exists.mp (hl z (List.mem_cons_of_mem _ hz'))
        have h1 : ¬ a < b := by
          rw [ha, hb] at hltf
          simpa [simLt] using hltf
        have h2 : ¬ b < d := by
          have := hy z hz'
          rw [hb, hd] at this
          simpa [simLt] using this
        rw [ha, hd]
        simp [simLt]
        exact le_trans (not_lt.mp h2) (not_lt.mp h1)

/-- The descending sort of a `nan`-free score list is a descending chain. -/
lemma pairwise_sortBySimDesc :
    ∀ {l : List (Nat × SimScore)}, (∀ y ∈ l, (y.2).isSome = true) →
      (sortBySimDesc l).Pairwise (fun a b => simLt a.2 b.2 = false) := by
  intro l
  induction l with
  | nil =>
    intro _
    simp [sortBySimDesc]
  | cons x xs ih =>
    intro hl
    rw [sortBySimDesc]
    refine pairwise_insertDesc (hl x (List.mem_cons_self x xs)) ?_
      (ih (fun y hy => hl y (List.mem_cons_of_mem _ hy)))
    intro y hy
    exact hl y (List.mem_cons_of_mem _ (mem_sortBySimDesc.mp hy))

/-- A pairwise-descending list is an adjacent-descending sequence. -/
lemma sortedDescBy_of_pairwise {α : Type} (f : α → SimScore) :
    ∀ {l : List α},
      l.Pairwise (fun a b => simScoreLEb (f b) (f a) = true) → sortedDescBy f l = true := by
  intro l
  induction l with
  | nil => intro _; rfl
  | cons a t ih =>
    intro h
    obtain ⟨ha, ht⟩ := List.pairwise_cons.mp h
    cases t with
    | nil => rfl
    | cons b t2 =>
      have hrec := ih ht
      simp only [sortedDescBy]
      rw [ha b (List.mem_cons_self b t2), hrec]
      rfl

end SortLemmas

section FilterLemmas

/-- One filter step only removes candidates. -/
lemma filterStep_subset {c : Corpus} {acc : List Nat} {kv : String × String} {i : Nat}
    (h : i ∈ filterStep c acc kv) : i ∈ acc := by
  unfold filterStep at h
  by_cases hc : c.columns.contains kv.1 = true
  · rw [if_pos hc] at h
    exact (List.mem_filter.mp h).1
  · rw [if_neg hc] at h
    exact h

/-- The whole filter fold only removes candidates. -/
lemma foldl_filterStep_subset {c : Corpus} :
    ∀ (criteria : List (String × String)) (acc : List Nat) (i : Nat),
      i ∈ criteria.foldl (filterStep c) acc → i ∈ acc := by
  intro criteria
  induction criteria with
  | nil => intro acc i h; exact h
  | cons kv rest ih =>
    intro acc i h
    exact filterStep_subset (ih _ _ h)

/-- Every survivor of the filter fold satisfies each criteria pair whose key
is a column. -/
lemma foldl_filterStep_matches {c : Corpus} :
    ∀ (criteria : List (String × String)) (acc : List Nat) (i : Nat),
      i ∈ criteria.foldl (filterStep c) acc →
      ∀ kv ∈ criteria, c.columns.contains kv.1 = true →
        (c.rows.getD i []).lookup kv.1 = some kv.2 := by
  intro criteria
  induction criteria with
  | nil =>
    intro acc i _ kv hkv
    exact absurd hkv (List.not_mem_nil kv)
  | cons kv0 rest ih =>
    intro acc i h kv hkv hcol
    rcases List.mem_cons.mp hkv with rfl | hkv'
    · have h0 : i ∈ filterStep c acc kv := foldl_filterStep_subset rest _ i h
      unfold filterStep at h0
      rw [if_pos hcol] at h0
      have hz := (List.mem_filter.mp h0).2
      simpa using hz
    · exact ih _ _ h kv hkv' hcol

/-- Survivors are genuine row indices. -/
lemma applyFilters_lt {c : Corpus} {criteria : List (String × String)} {i : Nat}
    (h : i ∈ applyFilters c criteria) : i < c.rows.length :=
  List.mem_range.mp (foldl_filterStep_subset criteria _ i h)

/-- Searching an empty candidate set yields no hits. -/
lemma searchFrom_nil (c : Corpus) (q : List ℚ) (topK : Nat) :
    searchFrom c q topK [] = [] := by
  unfold searchFrom
  simp [sortBySimDesc]

end FilterLemmas

/-- The search ranking contract: at most `topK` hits, each hit's metadata
cell matches each filter pair, and the hits descend by their own (true)
similarity to the query. -/
def searchContractOK (c : Corpus) (q : List ℚ) (topK : Nat)
    (F : List (String × String)) : Prop :=
  (VectorStore.search c (some q) topK F).length ≤ topK ∧
  (∀ h ∈ VectorStore.search c (some q) topK F, ∀ kv ∈ F,
      h.metadata.lookup kv.1 = some kv.2) ∧
  sortedDescBy (trueSim c q) (VectorStore.search c (some q) topK F) = true

/-- Structure of any `searchFrom` result: bounded length, hits drawn from
the candidate set carrying their own row's metadata, and ranked by
non-increasing true similarity (given no zero-norm vectors). -/
lemma searchFrom_spec (c : Corpus) (q : List ℚ) (topK : Nat) (filtered : List Nat)
    (hidx : ∀ i ∈ filtered, i < c.rows.length)
    (hlen : c.embeddings.length = c.rows.length)
    (hq : normSq q ≠ 0)
    (hemb : ∀ e ∈ c.embeddings, normSq e ≠ 0) :
    (searchFrom c q topK filtered).length ≤ topK ∧
    (∀ h ∈ searchFrom c q topK filtered,
        h.idx ∈ filtered ∧ h.metadata = c.rows.getD h.idx []) ∧
    sortedDescBy (trueSim c q) (searchFrom c q topK filtered) = true := by
  have hsome : ∀ p ∈ filtered.map
      (fun i => (i, cosine_similarity q (c.embeddings.getD i []))), (p.2).isSome = true := by
    intro p hp
    obtain ⟨i, hi, rfl⟩ := List.mem_map.mp hp
    have hilt : i < c.embeddings.length := by
      rw [hlen]
      exact hidx i hi
    have hmem : c.embeddings.getD i [] ∈ c.embeddings := by
      rw [List.getD_eq_getElem _ _ hilt]
      exact List.getElem_mem hilt
    have hne : normSq q * normSq (c.embeddings.getD i []) ≠ 0 :=
      mul_ne_zero hq (hemb _ hmem)
    show (cosine_similarity q (c.embeddings.getD i [])).isSome = true
    unfold cosine_similarity
    rw [if_neg hne]
    rfl
  have hpairfact : ∀ p ∈ filtered.map
      (fun i => (i, cosine_similarity q (c.embeddings.getD i []))),
      p.2 = cosine_similarity q (c.embeddings.getD p.1 []) := by
    intro p hp
    obtain ⟨i, hi, rfl⟩ := List.mem_map.mp hp
    rfl
  unfold searchFrom
  refine ⟨?_, ?_, ?_⟩
  · rw [List.length_map, List.length_take]
    exact min_le_left _ _
  · intro h hh
    obtain ⟨p, hp, rfl⟩ := List.mem_map.mp hh
    have hpsims := mem_sortBySimDesc.mp ((List.take_sublist _ _).subset hp)
    obtain ⟨i, hi, hpe⟩ := List.mem_map.mp hpsims
    constructor
    · show p.1 ∈ filtered
      rw [← hpe]
      exact hi
    · rfl
  · have hPsorted := pairwise_sortBySimDesc hsome
    have hPtake := hPsorted.sublist (List.take_sublist topK _)
    apply sortedDescBy_of_pairwise
    rw [List.pairwise_map]
    refine hPtake.imp_of_mem ?_
    intro p p' hp hp' hR
    have hmem1 := mem_sortBySimDesc.mp ((List.take_sublist _ _).subset hp)
    have hmem2 := mem_sortBySimDesc.mp ((List.take_sublist _ _).subset hp')
    have hp2 := hpairfact p hmem1
    have hp2' := hpairfact p' hmem2
    obtain ⟨a, ha⟩ := Option.isSome_iff_exists.mp (hsome p hmem1)
    obtain ⟨b, hb⟩ := Option.isSome_iff_exists.mp (hsome p' hmem2)
    rw [ha, hb] at hR
    have hba : b ≤ a := not_lt.mp (by simpa [simLt] using hR)
    show simScoreLEb (cosine_similarity q (c.embeddings.getD p'.1 []))
      (cosine_similarity q (c.embeddings.getD p.1 [])) = true
    rw [← hp2, ← hp2', ha, hb]
    simpa [simScoreLEb] using hba

/-- Claim C1, amended: provided every filter key is a metadata column and no
vector involved has zero norm, search returns at most `topK` hits, every
hit's metadata matches every filter pair exactly, and the hits are ranked by
non-increasing similarity between the query and each hit's own embedding.
(The reported 'similarity' values may still be mispaired — see C2 — and an
unknown filter key or a zero-norm vector breaks the respective conjunct, as
the counterexample shows.) -/
theorem claimC1_theorem (c : Corpus) (q : List ℚ) (topK : Nat) (F : List (String × String))
    (hlen : c.embeddings.length = c.rows.length)
    (hkeys : ∀ kv ∈ F, c.columns.contains kv.1 = true)
    (hq : normSq q ≠ 0)
    (hemb : ∀ e ∈ c.embeddings, normSq e ≠ 0) :
    searchContractOK c q topK F := by
  unfold searchContractOK VectorStore.search
  dsimp only
  by_cases hF : F.isEmpty = true
  · rw [if_pos hF]
    have hFnil : F = [] := List.isEmpty_iff.mp hF
    obtain ⟨h1, h2, h3⟩ := searchFrom_spec c q topK (List.range c.rows.length)
      (fun i hi => List.mem_range.mp hi) hlen hq hemb
    exact ⟨h1, fun h _ kv hkv => absurd hkv (by simp [hFnil]), h3⟩
  · rw [if_neg hF]
    by_cases hfil : (applyFilters c F).isEmpty = true
    · rw [if_pos hfil]
      exact ⟨by simp, by simp, rfl⟩
    · rw [if_neg hfil]
      obtain ⟨h1, h2, h3⟩ := searchFrom_spec c q topK (applyFilters c F)
        (fun i hi => applyFilters_lt hi) hlen hq hemb
      refine ⟨h1, ?_, h3⟩
      intro h hh kv hkv
      obtain ⟨hin, hmeta⟩ := h2 h hh
      rw [hmeta]
      unfold applyFilters at hin
      exact foldl_filterStep_matches F _ h.idx hin kv hkv (hkeys kv hkv)

/-- Claim C1, counterexample: searching `exCorpus` with the filter
mapping [("bogus", "x")] — a key that is not a metadata column — returns
hits that do not match that pair at all (the column does not exist), and
whose reported 'similarity' sequence is strictly increasing, so the claim's
conjunction fails as stated. -/
theorem claimC1_counterexample :
    ¬ ((VectorStore.search exCorpus (some [0, 1]) 5 [("bogus", "x")]).length ≤ 5 ∧
       (∀ h ∈ VectorStore.search exCorpus (some [0, 1]) 5 [("bogus", "x")],
          ∀ kv ∈ [("bogus", "x")], h.metadata.lookup kv.1 = some kv.2) ∧
       sortedDescBy (fun h => h.similarity)
         (VectorStore.search exCorpus (some [0, 1]) 5 [("bogus", "x")]) = true) :=
  of_decide_eq_false (by with_unfolding_all rfl)

/-- Claim C1, witness: the amended contract holds at a concrete corpus,
query, topK and column-keyed filter. -/
theorem claimC1_witness :
    exCorpus.embeddings.length = exCorpus.rows.length ∧
    (∀ kv ∈ [("hmo", "maccabi")], exCorpus.columns.contains kv.1 = true) ∧
    normSq [0, 1] ≠ 0 ∧
    (∀ e ∈ exCorpus.embeddings, normSq e ≠ 0) ∧
    searchContractOK exCorpus [0, 1] 1 [("hmo", "maccabi")] :=
  ⟨rfl, by decide, of_decide_eq_true (by with_unfolding_all rfl),
    of_decide_eq_true (by with_unfolding_all rfl),
    claimC1_theorem exCorpus [0, 1] 1 [("hmo", "maccabi")] rfl (by decide)
      (of_decide_eq_true (by with_unfolding_all rfl))
      (of_decide_eq_true (by with_unfolding_all rfl))⟩

/-- Claim C10: a filter key that is not a metadata column imposes no
constraint — both search and filter_by_metadata behave exactly as if the
pair were omitted, wherever it sits in the criteria. -/
theorem claimC10_theorem (c : Corpus) (qOpt : Option (List ℚ)) (topK : Nat)
    (F₁ F₂ : List (String × String)) (k v : String)
    (hk : c.columns.contains k = false) :
    VectorStore.search c qOpt topK (F₁ ++ (k, v) :: F₂)
      = VectorStore.search c qOpt topK (F₁ ++ F₂) ∧
    filter_by_metadata c (F₁ ++ (k, v) :: F₂) = filter_by_metadata c (F₁ ++ F₂) := by
  have hstep : ∀ acc : List Nat, filterStep c acc (k, v) = acc := by
    intro acc
    unfold filterStep
    rw [hk]
    simp
  have hrstep : ∀ rs : List Row, rowFilterStep c rs (k, v) = rs := by
    intro rs
    unfold rowFilterStep
    rw [hk]
    simp
  have hAF : applyFilters c (F₁ ++ (k, v) :: F₂) = applyFilters c (F₁ ++ F₂) := by
    unfold applyFilters
    rw [List.foldl_append, List.foldl_append, List.foldl_cons, hstep]
  refine ⟨?_, by unfold filter_by_metadata; rw [List.foldl_append, List.foldl_append,
    List.foldl_cons, hrstep]⟩
  cases qOpt with
  | none => rfl
  | some q =>
    unfold VectorStore.search
    by_cases hemp : (F₁ ++ F₂).isEmpty = true
    · obtain ⟨rfl, rfl⟩ := List.append_eq_nil.mp (List.isEmpty_iff.mp hemp)
      simp only [List.nil_append, List.append_nil]
      have hAF1 : applyFilters c [(k, v)] = List.range c.rows.length := by
        unfold applyFilters
        rw [List.foldl_cons, hstep, List.foldl_nil]
      rw [show (([(k, v)] : List (String × String)).isEmpty) = false from rfl]
      rw [show (([] : List (String × String)).isEmpty) = true from rfl]
      simp only [Bool.false_eq_true, if_false, if_true]
      rw [hAF1]
      by_cases hn : (List.range c.rows.length).isEmpty = true
      · rw [if_pos hn, List.isEmpty_iff.mp hn, searchFrom_nil]
      · rw [if_neg hn]
    · have hempL : (F₁ ++ (k, v) :: F₂).isEmpty = false := by
        rcases F₁ with _ | ⟨a, t⟩ <;> rfl
      have hempF : (F₁ ++ F₂).isEmpty = false := by
        cases h : (F₁ ++ F₂).isEmpty
        · rfl
        · exact absurd h hemp
      rw [hempL, hempF]
      simp only [Bool.false_eq_true, if_false]
      rw [hAF]

/-- Claim C10, witness: dropping a concrete unknown key from a concrete
filter leaves the search result unchanged. -/
theorem claimC10_witness :
    exCorpus.columns.contains "bogus" = false ∧
    VectorStore.search exCorpus (some [0, 1]) 5 ([("hmo", "maccabi")] ++ ("bogus", "x") :: [])
      = VectorStore.search exCorpus (some [0, 1]) 5 ([("hmo", "maccabi")] ++ []) :=
  ⟨by decide,
    (claimC10_theorem exCorpus (some [0, 1]) 5 [("hmo", "maccabi")] [] "bogus" "x" (by decide)).1⟩

/-- Characterization of the running-best loop: starting from a champion
`(bm, bd)`, it returns the first strict improvement chain's final champion —
the minimum distance over everything seen, with ties resolved in favour of
the earliest candidate. -/
lemma bestLoop_some_spec (lc : ℚ × ℚ) :
    ∀ (l : List OcrMark) (bm : OcrMark) (bd : ℚ),
      ∃ m d, bestLoop lc (some (bm, bd)) l = some (m, d) ∧
        d ≤ bd ∧
        (∀ x ∈ l, d ≤ distSq lc (compute_center x.position)) ∧
        ((m = bm ∧ d = bd) ∨
          (∃ pre suf, l = pre ++ m :: suf ∧
            d = distSq lc (compute_center m.position) ∧
            d < bd ∧ ∀ p ∈ pre, d < distSq lc (compute_center p.position))) := by
  intro l
  induction l with
  | nil =>
    intro bm bd
    exact ⟨bm, bd, rfl, le_refl bd, by simp, Or.inl ⟨rfl, rfl⟩⟩
  | cons m0 ms ih =>
    intro bm bd
    by_cases hd : distSq lc (compute_center m0.position) < bd
    · obtain ⟨m, d, heq, hle, hmin, hcase⟩ := ih m0 (distSq lc (compute_center m0.position))
      refine ⟨m, d, ?_, le_of_lt (lt_of_le_of_lt hle hd), ?_, ?_⟩
      · show bestLoop lc (some (bm, bd)) (m0 :: ms) = some (m, d)
        unfold bestLoop
        dsimp only
        rw [if_pos hd]
        exact heq
      · intro x hx
        rcases List.mem_cons.mp hx with rfl | hx'
        · exact hle
        · exact hmin x hx'
      · rcases hcase with ⟨hm0, hd0⟩ | ⟨pre, suf, hms, hdm, hdlt, hpre⟩
        · refine Or.inr ⟨[], ms, ?_, ?_, ?_, ?_⟩
          · rw [hm0]
            rfl
          · rw [hd0, hm0]
          · rw [hd0]
            exact hd
          · intro p hp
            exact absurd hp (List.not_mem_nil p)
        · refine Or.inr ⟨m0 :: pre, suf, ?_, hdm, lt_trans hdlt hd, ?_⟩
          · rw [List.cons_append, ← hms]
          · intro p hp
            rcases List.mem_cons.mp hp with rfl | hp'
            · exact hdlt
            · exact hpre p hp'
    · obtain ⟨m, d, heq, hle, hmin, hcase⟩ := ih bm bd
      refine ⟨m, d, ?_, hle, ?_, ?_⟩
      · show bestLoop lc (some (bm, bd)) (m0 :: ms) = some (m, d)
        unfold bestLoop
        dsimp only
        rw [if_neg hd]
        exact heq
      · intro x hx
        rcases List.mem_cons.mp hx with rfl | hx'
        · exact le_trans hle (not_lt.mp hd)
        · exact hmin x hx'
      · rcases hcase with hleft | ⟨pre, suf, hms, hdm, hdlt, hpre⟩
        · exact Or.inl hleft
        · refine Or.inr ⟨m0 :: pre, suf, ?_, hdm, hdlt, ?_⟩
          · rw [List.cons_append, ← hms]
          · intro p hp
            rcases List.mem_cons.mp hp with rfl | hp'
            · exact lt_of_lt_of_le hdlt (not_lt.mp hd)
            · exact hpre p hp'

/-- The matcher contract of §4.4 and claim C9: one output per label in
order; candidates are exactly the marks strictly to the right of the label's
centroid; a label with no candidate yields none; otherwise the emitted state
belongs to a candidate at minimum centroid distance, and every candidate
strictly earlier in iteration order is strictly farther (first-found wins
ties). -/
def matcherContract (lines : List OcrLine) (marks : List OcrMark) : Prop :=
  (match_key_with_checkbox lines marks).length = lines.length ∧
  ∀ i, ∀ hi : i < lines.length, ∀ hr : i < (match_key_with_checkbox lines marks).length,
    ((match_key_with_checkbox lines marks).get ⟨i, hr⟩).line_content
        = (lines.get ⟨i, hi⟩).content ∧
    ((marks.filter (fun m =>
          (compute_center (lines.get ⟨i, hi⟩).position).1 < (compute_center m.position).1) = []
        ∧ ((match_key_with_checkbox lines marks).get ⟨i, hr⟩).matched_mark_state = none) ∨
      (∃ chosen pre suf,
        marks.filter (fun m =>
            (compute_center (lines.get ⟨i, hi⟩).position).1 < (compute_center m.position).1)
          = pre ++ chosen :: suf ∧
        ((match_key_with_checkbox lines marks).get ⟨i, hr⟩).matched_mark_state
          = some chosen.state ∧
        (∀ m2 ∈ marks.filter (fun m =>
            (compute_center (lines.get ⟨i, hi⟩).position).1 < (compute_center m.position).1),
          distSq (compute_center (lines.get ⟨i, hi⟩).position) (compute_center chosen.position)
            ≤ distSq (compute_center (lines.get ⟨i, hi⟩).position) (compute_center m2.position)) ∧
        (∀ p ∈ pre,
          distSq (compute_center (lines.get ⟨i, hi⟩).position) (compute_center chosen.position)
            < distSq (compute_center (lines.get ⟨i, hi⟩).position) (compute_center p.position))))

/-- Claim C9: for polygons that are non-empty (Python would raise on an
empty one), the spatial matcher satisfies the contract: right-of-label
candidates only, closest wins, first found wins ties, and none when no
candidate qualifies. -/
theorem claimC9_theorem (lines : List OcrLine) (marks : List OcrMark)
    (hl : ∀ l ∈ lines, l.position ≠ []) (hm : ∀ m ∈ marks, m.position ≠ []) :
    matcherContract lines marks := by
  constructor
  · unfold match_key_with_checkbox
    exact List.length_map _ _
  · intro i hi hr
    have hget : (match_key_with_checkbox lines marks).get ⟨i, hr⟩
        = { line_content := (lines.get ⟨i, hi⟩).content,
            matched_mark_state :=
              (bestLoop (compute_center (lines.get ⟨i, hi⟩).position) none
                (marks.filter (fun m =>
                  (compute_center (lines.get ⟨i, hi⟩).position).1
                    < (compute_center m.position).1))).map (fun p => p.1.state) } := by
      rw [List.get_eq_getElem, List.get_eq_getElem]
      unfold match_key_with_checkbox
      rw [List.getElem_map]
    refine ⟨by rw [hget], ?_⟩
    cases hv : marks.filter (fun m =>
        (compute_center (lines.get ⟨i, hi⟩).position).1 < (compute_center m.position).1) with
    | nil =>
      refine Or.inl ⟨rfl, ?_⟩
      rw [hget, hv]
      rfl
    | cons m0 rest =>
      obtain ⟨m, d, heq, hle, hmin, hcase⟩ :=
        bestLoop_some_spec (compute_center (lines.get ⟨i, hi⟩).position) rest m0
          (distSq (compute_center (lines.get ⟨i, hi⟩).position) (compute_center m0.position))
      have hloop : bestLoop (compute_center (lines.get ⟨i, hi⟩).position) none (m0 :: rest)
          = some (m, d) := by
        unfold bestLoop
        dsimp only
        exact heq
      have hdval : d = distSq (compute_center (lines.get ⟨i, hi⟩).position)
          (compute_center m.position) := by
        rcases hcase with ⟨hm0, hd0⟩ | ⟨_, _, _, hdm, _, _⟩
        · rw [hd0, hm0]
        · exact hdm
      rcases hcase with ⟨hm0, hd0⟩ | ⟨pre, suf, hms, hdm, hdlt, hpre⟩
      · refine Or.inr ⟨m, [], rest, ?_, ?_, ?_, ?_⟩
        · rw [hm0]
          rfl
        · rw [hget, hv, hloop]
          rfl
        · intro m2 hm2
          rw [← hdval]
          rcases List.mem_cons.mp hm2 with rfl | h2
          · exact hle
          · exact hmin m2 h2
        · intro p hp
          exact absurd hp (List.not_mem_nil p)
      · refine Or.inr ⟨m, m0 :: pre, suf, ?_, ?_, ?_, ?_⟩
        · rw [hms]
          rfl
        · rw [hget, hv, hloop]
          rfl
        · intro m2 hm2
          rw [← hdval]
          rcases List.mem_cons.mp hm2 with rfl | h2
          · exact hle
          · exact hmin m2 h2
        · intro p hp
          rw [← hdval]
          rcases List.mem_cons.mp hp with rfl | hp2
          · exact hdlt
          · exact hpre p hp2

/-- A concrete label line and two marks (only the first lies to the right of
the label). -/
def exLines : List OcrLine :=
  [{ content := "כללית", position := [{ x := 0, y := 0 }, { x := 2, y := 2 }] }]

/-- Concrete checkbox marks for the witness. -/
def exMarks : List OcrMark :=
  [{ state := "selected", position := [{ x := 4, y := 0 }, { x := 6, y := 2 }] },
   { state := "unselected", position := [{ x := 0, y := 6 }, { x := 2, y := 8 }] }]

/-- Claim C9, witness: concrete non-empty polygons satisfying the
hypotheses, with the contract concluded from the theorem. -/
theorem claimC9_witness :
    (∀ l ∈ exLines, l.position ≠ []) ∧ (∀ m ∈ exMarks, m.position ≠ []) ∧
    matcherContract exLines exMarks :=
  ⟨by decide, by decide, claimC9_theorem exLines exMarks (by decide) (by decide)⟩
